import Mathlib

/-!
Shallow embedding of the distributed-printing repository
(`lamport_clock.py`, `printing_client.py`, `printer_server.py`,
`test_cases.py`).

Python methods that mutate `self` become Lean functions that return the
new state (paired with the method's return value where the source
returns one).  Python's unbounded `int` is embedded as `Int`.  The
threading primitives (locks, `threading.Event`) disappear: each lock
protects a region that is modelled as one atomic Lean function, and each
one-shot `Event` created by a deferred `RequestAccess` handler is
modelled by a fresh natural-number identifier drawn from a counter.
Network sends are recorded as an explicit list of `ClientAction`s in the order
the source performs them.
-/

/-- Embedding of `LamportClock` (lamport_clock.py).  The `_lock` field
only serializes the three methods; each method body is one atomic Lean
function on the integer field `time`. -/
structure LamportClock where
  time : Int
deriving DecidableEq, Repr

/-- Embedding of `LamportClock.__init__`: `self._time = 0`. -/
def LamportClock.init : LamportClock := ⟨0⟩

/-- Embedding of `LamportClock.tick`: `self._time += 1; return self._time`.
Returns the value returned by the source together with the new clock. -/
def LamportClock.tick (c : LamportClock) : Int × LamportClock :=
  (c.time + 1, ⟨c.time + 1⟩)

/-- Embedding of `LamportClock.update`:
`self._time = max(self._time, received_timestamp) + 1; return self._time`. -/
def LamportClock.update (c : LamportClock) (received_timestamp : Int) :
    Int × LamportClock :=
  (max c.time received_timestamp + 1, ⟨max c.time received_timestamp + 1⟩)

/-- Embedding of `LamportClock.get_time`: returns the current value
without incrementing. -/
def LamportClock.get_time (c : LamportClock) : Int := c.time

/-- The returned values of a sequence of `tick` calls on a clock, in
call order (used by the tests in `test_cases.py`). -/
def tickList : Nat → LamportClock → List Int
  | 0, _ => []
  | Nat.succ k, c => (LamportClock.tick c).1 :: tickList k (LamportClock.tick c).2

/-- One operation of the clock's public interface. -/
inductive ClockOp where
  | tick : ClockOp
  | update (received : Int) : ClockOp
  | get_time : ClockOp
deriving DecidableEq, Repr

/-- State effect of one clock operation (`get_time` has none). -/
def applyOp (c : LamportClock) : ClockOp → LamportClock
  | ClockOp.tick => (c.tick).2
  | ClockOp.update r => (c.update r).2
  | ClockOp.get_time => c

/-- Run a sequence of clock operations from a starting clock. -/
def runOps (c : LamportClock) (ops : List ClockOp) : LamportClock :=
  ops.foldl applyOp c

/-- Embedding of `TestMutexLogic._has_priority` (test_cases.py):
`my_ts < other_ts`, else on equal timestamps `my_id < other_id`,
else `False`. -/
def has_priority (my_ts my_id other_ts other_id : Int) : Bool :=
  if my_ts < other_ts then true
  else if my_ts = other_ts then decide (my_id < other_id)
  else false

/-- Wire message `PrintRequest` (distributed_printing schema). -/
structure PrintRequest where
  client_id : Int
  message_content : String
  lamport_timestamp : Int
  request_number : Int
deriving DecidableEq, Repr

/-- Wire message `PrintResponse`. -/
structure PrintResponse where
  success : Bool
  confirmation_message : String
  lamport_timestamp : Int
deriving DecidableEq, Repr

/-- State of `PrinterServiceImpl` (printer_server.py): only a print
counter; the printer keeps no Lamport clock. -/
structure PrinterServiceImpl where
  print_count : Int
deriving DecidableEq, Repr

/-- Embedding of `PrinterServiceImpl.SendToPrinter`: increments
`print_count`, prints (I/O dropped), sleeps (dropped), and returns
`PrintResponse(success=True, confirmation_message=..., lamport_timestamp=request.lamport_timestamp)`. -/
def SendToPrinter (p : PrinterServiceImpl) (request : PrintRequest) :
    PrintResponse × PrinterServiceImpl :=
  let p2 : PrinterServiceImpl := ⟨p.print_count + 1⟩
  ({ success := true
     confirmation_message :=
       "Impressão #" ++ toString p2.print_count ++ " concluída com sucesso"
     lamport_timestamp := request.lamport_timestamp }, p2)

/-- Wire message `AccessRequest`. -/
structure AccessRequest where
  client_id : Int
  lamport_timestamp : Int
  request_number : Int
deriving DecidableEq, Repr

/-- Wire message `AccessResponse`. -/
structure AccessResponse where
  access_granted : Bool
  lamport_timestamp : Int
deriving DecidableEq, Repr

/-- Wire message `AccessRelease`. -/
structure AccessRelease where
  client_id : Int
  lamport_timestamp : Int
  request_number : Int
deriving DecidableEq, Repr

/-- Embedding of `MutexState` (printing_client.py). -/
inductive MutexState where
  | RELEASED : MutexState
  | WANTED : MutexState
  | HELD : MutexState
deriving DecidableEq, Repr

/-- State of a `PrintingClient` (printing_client.py).  A deferred reply
is a pair `(client_id, event)` as in the source; the `threading.Event`
objects are identified by natural numbers drawn from `next_event`, so
each deferral creates a fresh, distinct signal.  `peer_stubs` keeps only
the peer ids of the source's stub dictionary. -/
structure PrintingClient where
  client_id : Int
  clock : LamportClock
  state : MutexState
  my_request_timestamp : Int
  request_number : Int
  pending_replies : Int
  deferred_replies : List (Int × Nat)
  next_event : Nat
  peer_stubs : List Int
deriving DecidableEq, Repr

/-- Observable action of a client: firing a deferred peer's signal, or
sending a message on the wire. -/
inductive ClientAction where
  | FireSignal (peer : Int) (event : Nat) : ClientAction
  | SendRelease (peer : Int) (msg : AccessRelease) : ClientAction
  | SendRequest (peer : Int) (msg : AccessRequest) : ClientAction
deriving DecidableEq, Repr

/-- Holds of the action of firing a deferred signal. -/
def ClientAction.isFire : ClientAction → Bool
  | ClientAction.FireSignal _ _ => true
  | _ => false

/-- Holds of the action of broadcasting an `AccessRequest`. -/
def ClientAction.isSendReq : ClientAction → Bool
  | ClientAction.SendRequest _ _ => true
  | _ => false

/-- The defer decision of `RequestAccess` (printing_client.py lines
60–85): `HELD` always defers, `WANTED` defers when
`(my_ts < req_timestamp) or (my_ts == req_timestamp and my_id < client_id)`,
`RELEASED` replies immediately. -/
def should_defer (c : PrintingClient) (request : AccessRequest) : Bool :=
  match c.state with
  | MutexState.HELD => true
  | MutexState.WANTED =>
      if (c.my_request_timestamp < request.lamport_timestamp) ∨
         (c.my_request_timestamp = request.lamport_timestamp ∧
          c.client_id < request.client_id) then true
      else false
  | MutexState.RELEASED => false

/-- Result of the `RequestAccess` handler up to its suspension point: an
immediate `AccessResponse`, or a deferral that parks the handler thread
on the identified signal. -/
inductive RequestOutcome where
  | immediate (resp : AccessResponse) : RequestOutcome
  | deferred (event : Nat) : RequestOutcome
deriving DecidableEq, Repr

/-- Holds of a deferral. -/
def RequestOutcome.isDeferred : RequestOutcome → Bool
  | RequestOutcome.deferred _ => true
  | RequestOutcome.immediate _ => false

/-- Embedding of `MutualExclusionServiceImpl.RequestAccess` up to the
deferred branch's `reply_event.wait()`: first the unconditional
`clock.update(request.lamport_timestamp)`, then the defer decision under
`state_lock`; a deferral creates a fresh event and appends
`(client_id, event)` to `deferred_replies`; an immediate reply returns
`AccessResponse(access_granted=True, lamport_timestamp=new_time)`. -/
def RequestAccess (c : PrintingClient) (request : AccessRequest) :
    RequestOutcome × PrintingClient :=
  let new_time := (c.clock.update request.lamport_timestamp).1
  let c1 : PrintingClient :=
    { c with clock := (c.clock.update request.lamport_timestamp).2 }
  if should_defer c1 request then
    (RequestOutcome.deferred c1.next_event,
     { c1 with
         deferred_replies :=
           c1.deferred_replies ++ [(request.client_id, c1.next_event)]
         next_event := c1.next_event + 1 })
  else
    (RequestOutcome.immediate ⟨true, new_time⟩, c1)

/-- Embedding of the tail of the deferred branch of `RequestAccess`:
after its signal fires, the handler performs `clock.tick()` and returns
`AccessResponse(access_granted=True, lamport_timestamp=<tick value>)`.
`c` is the client state at wake-up time. -/
def resume_deferred (c : PrintingClient) : AccessResponse × PrintingClient :=
  ((⟨true, (c.clock.tick).1⟩ : AccessResponse),
   { c with clock := (c.clock.tick).2 })

/-- Embedding of `MutualExclusionServiceImpl.ReleaseAccess`: updates the
clock with the sender's timestamp and logs; the reply-accounting block
in the source is commented out, so nothing else changes. -/
def ReleaseAccess (c : PrintingClient) (request : AccessRelease) :
    PrintingClient :=
  { c with clock := (c.clock.update request.lamport_timestamp).2 }

/-- Outcome of one outbound `RequestAccess` call as observed by the
`send_request` closure (printing_client.py lines 249–266): a response,
or a `grpc.RpcError` (timeout or transport failure). -/
inductive ReplyOutcome where
  | success (resp : AccessResponse) : ReplyOutcome
  | rpc_error : ReplyOutcome
deriving DecidableEq, Repr

/-- Embedding of the body of `send_request`: a successful response
updates the clock and decrements `pending_replies`; an `RpcError` is
counted as a received reply, decrementing `pending_replies` the same
way (without a clock update). -/
def handle_reply (c : PrintingClient) : ReplyOutcome → PrintingClient
  | ReplyOutcome.success resp =>
      { c with
          clock := (c.clock.update resp.lamport_timestamp).2
          pending_replies := c.pending_replies - 1 }
  | ReplyOutcome.rpc_error =>
      { c with pending_replies := c.pending_replies - 1 }

/-- Embedding of the entry of `request_critical_section` (printing_client.py
lines 224–246): under `state_lock` set state to `WANTED`, stamp
`my_request_timestamp` with `clock.tick()` and increment
`request_number`; then set `pending_replies` to the number of peer
stubs, and send an `AccessRequest` to every peer. -/
def acquire_start (c : PrintingClient) : PrintingClient × List ClientAction :=
  let req_ts := (c.clock.tick).1
  let c1 : PrintingClient :=
    { c with
        state := MutexState.WANTED
        clock := (c.clock.tick).2
        my_request_timestamp := req_ts
        request_number := c.request_number + 1 }
  let c2 : PrintingClient :=
    { c1 with pending_replies := (c1.peer_stubs.length : Int) }
  (c2, c2.peer_stubs.map (fun p =>
    ClientAction.SendRequest p ⟨c.client_id, req_ts, c2.request_number⟩))

/-- Embedding of the whole of `request_critical_section`, given the list
of outcomes of the outbound calls in the order their `send_request`
threads complete.  The `reply_event.wait()` unblocks exactly when
`pending_replies` reaches 0, upon which the state becomes `HELD`;
otherwise the call is still blocked (`none`). -/
def request_critical_section (c : PrintingClient)
    (outcomes : List ReplyOutcome) : Option (PrintingClient × List ClientAction) :=
  let c1 := (acquire_start c).1
  let c2 := outcomes.foldl handle_reply c1
  if c2.pending_replies = 0 then
    some ({ c2 with state := MutexState.HELD }, (acquire_start c).2)
  else none

/-- Embedding of `release_critical_section` (printing_client.py lines
287–331): set state to `RELEASED`, `release_ts := clock.tick()`, fire
every deferred reply's signal in queue order and clear the queue, then
broadcast `AccessRelease` to every peer. -/
def release_critical_section (c : PrintingClient) :
    PrintingClient × List ClientAction :=
  let req_num := c.request_number
  let c1 : PrintingClient := { c with state := MutexState.RELEASED }
  let release_ts := (c1.clock.tick).1
  let c2 : PrintingClient := { c1 with clock := (c1.clock.tick).2 }
  let fires := c2.deferred_replies.map
    (fun pe => ClientAction.FireSignal pe.1 pe.2)
  let c3 : PrintingClient := { c2 with deferred_replies := [] }
  (c3, fires ++ c3.peer_stubs.map (fun p =>
    ClientAction.SendRelease p ⟨c.client_id, release_ts, req_num⟩))

/-- A release followed by this peer's next `acquire` entry, with the
combined action trace in program order (`request_to_print` performs
these phases back to back across successive critical sections). -/
def release_then_acquire (c : PrintingClient) :
    PrintingClient × List ClientAction :=
  let r := release_critical_section c
  let a := acquire_start r.1
  (a.1, r.2 ++ a.2)

theorem tickList_eq (k : Nat) :
    ∀ c : LamportClock,
      tickList k c = (List.range k).map (fun i : Nat => c.time + (i : Int) + 1) := by
  induction k with
  | zero => intro c; rfl
  | succ k ih =>
    intro c
    simp only [tickList, LamportClock.tick, ih, List.range_succ_eq_map,
      List.map_cons, List.map_map]
    congr 1
    · push_cast; ring
    · apply List.map_congr_left
      intro i _
      simp only [Function.comp]
      push_cast
      ring

theorem time_le_applyOp (c : LamportClock) (op : ClockOp) :
    c.time ≤ (applyOp c op).time := by
  cases op with
  | tick => simp [applyOp, LamportClock.tick]
  | update r =>
    simp only [applyOp, LamportClock.update]
    have := le_max_left c.time r
    omega
  | get_time => simp [applyOp]

theorem time_le_runOps (ops : List ClockOp) :
    ∀ c : LamportClock, c.time ≤ (runOps c ops).time := by
  induction ops with
  | nil => intro c; simp [runOps]
  | cons op ops ih =>
    intro c
    have h1 := time_le_applyOp c op
    have h2 := ih (applyOp c op)
    simp only [runOps, List.foldl_cons] at *
    omega

theorem has_priority_iff (t1 id1 t2 id2 : Int) :
    has_priority t1 id1 t2 id2 = true ↔ t1 < t2 ∨ (t1 = t2 ∧ id1 < id2) := by
  simp only [has_priority]
  split
  · simp_all
  · split
    · simp_all
    · simp_all

theorem isDeferred_RequestAccess (c : PrintingClient) (req : AccessRequest) :
    (RequestAccess c req).1.isDeferred = should_defer c req := by
  have hsd : should_defer
      { c with clock := (c.clock.update req.lamport_timestamp).2 } req =
      should_defer c req := by
    simp [should_defer]
  simp only [RequestAccess]
  split
  · simp_all [RequestOutcome.isDeferred]
  · simp_all [RequestOutcome.isDeferred]

theorem pending_foldl_handle_reply :
    ∀ (outs : List ReplyOutcome) (c : PrintingClient),
      (outs.foldl handle_reply c).pending_replies =
        c.pending_replies - outs.length := by
  intro outs
  induction outs with
  | nil => intro c; simp
  | cons o outs ih =>
    intro c
    have hone : (handle_reply c o).pending_replies = c.pending_replies - 1 := by
      cases o <;> rfl
    simp only [List.foldl_cons, ih, hone, List.length_cons]
    push_cast
    ring

/-- Sample clients used to instantiate the theorems below on concrete
states. -/
def sampleClient : PrintingClient :=
  { client_id := 1, clock := ⟨0⟩, state := MutexState.RELEASED,
    my_request_timestamp := 0, request_number := 0, pending_replies := 0,
    deferred_replies := [], next_event := 0, peer_stubs := [2] }

/-- A client currently in its critical section owing one deferred reply
to peer 2. -/
def sampleHolder : PrintingClient :=
  { client_id := 1, clock := ⟨7⟩, state := MutexState.HELD,
    my_request_timestamp := 3, request_number := 2, pending_replies := 0,
    deferred_replies := [(2, 0)], next_event := 1, peer_stubs := [2] }

/-- A client in `WANTED` with an outstanding request stamped 3. -/
def sampleWanted : PrintingClient :=
  { client_id := 1, clock := ⟨4⟩, state := MutexState.WANTED,
    my_request_timestamp := 3, request_number := 1, pending_replies := 1,
    deferred_replies := [], next_event := 0, peer_stubs := [2] }

/-- Claim C1: in the `RequestAccess` handler a client in state `WANTED`
defers its reply iff its own pair `(my_request_timestamp, my_id)` is
strictly lexicographically less than `(req.lamport_timestamp,
req.client_id)`; equivalently `has_priority((t1,id1),(t2,id2))` is true
iff `t1 < t2 ∨ (t1 = t2 ∧ id1 < id2)`, it is antisymmetric on distinct
inputs, and it is false on equal inputs. -/
theorem priority_defer_iff_lex :
    (∀ t1 id1 t2 id2 : Int,
      (has_priority t1 id1 t2 id2 = true ↔
        t1 < t2 ∨ (t1 = t2 ∧ id1 < id2)) ∧
      ((t1, id1) ≠ (t2, id2) →
        ¬(has_priority t1 id1 t2 id2 = true ∧
          has_priority t2 id2 t1 id1 = true)) ∧
      has_priority t1 id1 t1 id1 = false) ∧
    (∀ (c : PrintingClient) (req : AccessRequest),
      c.state = MutexState.WANTED →
      ((RequestAccess c req).1.isDeferred = true ↔
        has_priority c.my_request_timestamp c.client_id
          req.lamport_timestamp req.client_id = true)) := by
  constructor
  · intro t1 id1 t2 id2
    refine ⟨has_priority_iff t1 id1 t2 id2, ?_, ?_⟩
    · intro _ h
      rw [has_priority_iff] at h
      rw [has_priority_iff] at h
      omega
    · by_cases h : has_priority t1 id1 t1 id1 = true
      · rw [has_priority_iff] at h
        omega
      · simpa using h
  · intro c req h
    rw [isDeferred_RequestAccess, has_priority_iff]
    simp only [should_defer, h]
    split
    · simp_all
    · simp_all

/-- Claim C6: every `AccessResponse` produced by the `RequestAccess`
handler has `access_granted = true`; an immediate reply carries the
value of the handler's initial unconditional `clock.update`, while a
deferred reply, resumed after its signal fires, carries a fresh
`clock.tick()` value. -/
theorem access_response_always_granted :
    (∀ (c : PrintingClient) (req : AccessRequest) (resp : AccessResponse),
      (RequestAccess c req).1 = RequestOutcome.immediate resp →
      resp.access_granted = true ∧
      resp.lamport_timestamp = (c.clock.update req.lamport_timestamp).1) ∧
    (∀ c : PrintingClient,
      (resume_deferred c).1.access_granted = true ∧
      (resume_deferred c).1.lamport_timestamp = (c.clock.tick).1) := by
  constructor
  · intro c req resp h
    simp only [RequestAccess] at h
    split at h
    · exact absurd h (by simp)
    · cases h
      exact ⟨rfl, rfl⟩
  · intro c
    exact ⟨rfl, rfl⟩

/-- Witness for C6 at a concrete immediate reply: client `sampleClient`
(state `RELEASED`, clock 0) answering a request stamped 5 returns the
response `(true, 6)` where 6 is the handler's `clock.update(5)`. -/
theorem access_response_always_granted_witness :
    (AccessResponse.mk true 6).access_granted = true ∧
    (AccessResponse.mk true 6).lamport_timestamp =
      (sampleClient.clock.update 5).1 :=
  access_response_always_granted.1 sampleClient ⟨2, 5, 1⟩ ⟨true, 6⟩ (by decide)

/-- Witness for C1 at concrete inputs: `has_priority` is antisymmetric
at the distinct pairs `(1,1)` and `(2,2)`, and client `sampleWanted`
(request stamped 3) defers a competing request stamped 5. -/
theorem priority_defer_iff_lex_witness :
    ¬(has_priority 1 1 2 2 = true ∧ has_priority 2 2 1 1 = true) ∧
    (RequestAccess sampleWanted ⟨2, 5, 1⟩).1.isDeferred = true :=
  ⟨(priority_defer_iff_lex.1 1 1 2 2).2.1 (by decide),
   (priority_defer_iff_lex.2 sampleWanted ⟨2, 5, 1⟩ rfl).mpr (by decide)⟩

/-- Claim C8: `ReleaseAccess` performs `clock.update(rel.lamport_timestamp)`
and changes nothing else: `state`, `my_request_timestamp`,
`request_number`, `pending_replies` and the deferred-reply queue are all
unchanged. -/
theorem release_access_frame :
    ∀ (c : PrintingClient) (rel : AccessRelease),
      (ReleaseAccess c rel).state = c.state ∧
      (ReleaseAccess c rel).my_request_timestamp = c.my_request_timestamp ∧
      (ReleaseAccess c rel).request_number = c.request_number ∧
      (ReleaseAccess c rel).pending_replies = c.pending_replies ∧
      (ReleaseAccess c rel).deferred_replies = c.deferred_replies ∧
      (ReleaseAccess c rel).next_event = c.next_event ∧
      (ReleaseAccess c rel).clock = (c.clock.update rel.lamport_timestamp).2 :=
  fun _ _ => ⟨rfl, rfl, rfl, rfl, rfl, rfl, rfl⟩

/-- Claim C7: a timeout or transport error on an outbound `RequestAccess`
call is counted as a received reply: `handle_reply` decrements
`pending_replies` for an `RpcError` exactly as for a successful
response (changing nothing else), so `request_critical_section` still
completes when every peer call fails. -/
theorem rpc_error_counted_as_reply :
    (∀ (c : PrintingClient) (resp : AccessResponse),
      (handle_reply c (ReplyOutcome.success resp)).pending_replies =
        c.pending_replies - 1 ∧
      (handle_reply c ReplyOutcome.rpc_error).pending_replies =
        c.pending_replies - 1 ∧
      handle_reply c ReplyOutcome.rpc_error =
        { c with pending_replies := c.pending_replies - 1 }) ∧
    (∀ c : PrintingClient,
      (request_critical_section c
        (List.replicate c.peer_stubs.length
          ReplyOutcome.rpc_error)).isSome = true) := by
  refine ⟨fun c resp => ⟨rfl, rfl, rfl⟩, fun c => ?_⟩
  simp only [request_critical_section]
  rw [if_pos]
  · simp
  · rw [pending_foldl_handle_reply]
    simp [acquire_start]

/-- Claim C4: for every local clock value `t` and every received timestamp `r`,
`update(r)` sets the clock to `max(t, r) + 1` and returns that value; in
particular `update(2)` on a clock at 5 returns 6, and `update(5)` on a
clock at 5 returns 6. -/
theorem update_max_plus_one :
    (∀ t r : Int, (LamportClock.update ⟨t⟩ r).1 = max t r + 1 ∧
      (LamportClock.update ⟨t⟩ r).2.time = max t r + 1) ∧
    (LamportClock.update ⟨5⟩ 2).1 = 6 ∧
    (LamportClock.update ⟨5⟩ 5).1 = 6 := by
  refine ⟨fun t r => ⟨rfl, rfl⟩, by decide, by decide⟩

/-- Claim C5: `tick()` sets the clock to `time + 1` and returns the new
value; the values returned by successive ticks are strictly increasing,
and K ticks on a fresh clock return exactly 1, 2, ..., K. -/
theorem tick_succ_and_enumeration :
    (∀ c : LamportClock,
      (LamportClock.tick c).1 = c.time + 1 ∧ c.time < (LamportClock.tick c).1) ∧
    (∀ k : Nat, tickList k LamportClock.init =
      (List.range k).map (fun i : Nat => (i : Int) + 1)) ∧
    (∀ (k : Nat) (c : LamportClock),
      List.Pairwise (fun a b => a < b) (tickList k c)) := by
  refine ⟨fun c => ⟨rfl, ?_⟩, ?_, ?_⟩
  · simp only [LamportClock.tick]
    omega
  · intro k
    simp [tickList_eq, LamportClock.init]
  · intro k c
    rw [tickList_eq]
    rw [List.pairwise_map]
    refine (List.pairwise_lt_range k).imp ?_
    intro a b h
    dsimp only
    omega

/-- Claim C9: for every `PrintRequest`, `SendToPrinter` returns a
`PrintResponse` with `success = true` whose `lamport_timestamp` echoes
the request's timestamp (the printer keeps no Lamport clock of its own:
its state is just the print counter). -/
theorem send_to_printer_echoes :
    ∀ (p : PrinterServiceImpl) (req : PrintRequest),
      (SendToPrinter p req).1.success = true ∧
      (SendToPrinter p req).1.lamport_timestamp = req.lamport_timestamp ∧
      (SendToPrinter p req).2.print_count = p.print_count + 1 :=
  fun _ _ => ⟨rfl, rfl, rfl⟩

/-- Claim C10: a fresh `LamportClock` reads 0; `update` is total over all
integers and returns exactly `max(time, r) + 1`, which is at least
`time + 1`; consequently the value read via `get_time` never decreases
across any sequence of `tick`, `update` and `get_time` operations. -/
theorem clock_init_update_monotone :
    LamportClock.init.get_time = 0 ∧
    (∀ t r : Int, (LamportClock.update ⟨t⟩ r).1 = max t r + 1 ∧
      t + 1 ≤ (LamportClock.update ⟨t⟩ r).1) ∧
    (∀ (c : LamportClock) (ops : List ClockOp),
      c.get_time ≤ (runOps c ops).get_time) := by
  refine ⟨rfl, fun t r => ⟨rfl, ?_⟩, fun c ops => time_le_runOps ops c⟩
  have := le_max_left t r
  simp only [LamportClock.update]
  omega

/-- Claim C2 (amended): on entry to `WANTED`, `request_critical_section`
stamps the request with `clock.tick()`, increments `request_number` and
initializes `pending_replies` to the number of peer stubs (N−1); each
completed outbound call (successful `AccessResponse` or counted error)
decrements the counter once, and the transition to `HELD` occurs exactly
when the counter reaches zero, i.e. exactly when N−1 outbound call
outcomes have been processed. -/
theorem reply_accounting_counter :
    ∀ (c : PrintingClient) (outcomes : List ReplyOutcome),
      (acquire_start c).1.state = MutexState.WANTED ∧
      (acquire_start c).1.my_request_timestamp = (c.clock.tick).1 ∧
      (acquire_start c).1.request_number = c.request_number + 1 ∧
      (acquire_start c).1.pending_replies = (c.peer_stubs.length : Int) ∧
      (outcomes.foldl handle_reply (acquire_start c).1).pending_replies =
        (c.peer_stubs.length : Int) - outcomes.length ∧
      ((request_critical_section c outcomes).isSome = true ↔
        outcomes.length = c.peer_stubs.length) ∧
      (request_critical_section c outcomes).map
          (fun r => (r.1.state, r.1.pending_replies)) =
        (if outcomes.length = c.peer_stubs.length
         then some (MutexState.HELD, 0) else none) := by
  intro c outcomes
  have hp : (outcomes.foldl handle_reply (acquire_start c).1).pending_replies =
      (c.peer_stubs.length : Int) - outcomes.length := by
    rw [pending_foldl_handle_reply]
    rfl
  have hcond :
      ((outcomes.foldl handle_reply (acquire_start c).1).pending_replies = 0)
        ↔ outcomes.length = c.peer_stubs.length := by
    rw [hp]
    omega
  refine ⟨rfl, rfl, rfl, rfl, hp, ?_, ?_⟩
  · simp only [request_critical_section]
    by_cases h0 :
        (outcomes.foldl handle_reply (acquire_start c).1).pending_replies = 0
    · rw [if_pos h0]
      simpa using hcond.mp h0
    · rw [if_neg h0]
      simpa using fun hlen => h0 (hcond.mpr hlen)
  · simp only [request_critical_section]
    by_cases h0 :
        (outcomes.foldl handle_reply (acquire_start c).1).pending_replies = 0
    · rw [if_pos h0, if_pos (hcond.mp h0)]
      exact congrArg some (Prod.ext rfl h0)
    · rw [if_neg h0, if_neg (fun hlen => h0 (hcond.mpr hlen))]
      rfl

/-- Counterexample to claim C2 as stated: `sampleClient` has one
configured peer (id 2); when its single outbound `RequestAccess` call
fails with an `RpcError` — so no `AccessResponse` at all is received —
the client nevertheless completes `request_critical_section` and
transitions to `HELD`, because the error is counted as a reply. -/
theorem held_without_any_access_response :
    (request_critical_section sampleClient [ReplyOutcome.rpc_error]).map
      (fun r => r.1.state) = some MutexState.HELD := by decide

/-- Claim C3: after `release_critical_section`, the deferred-reply queue
is empty; each enqueued signal is fired exactly as many times as it was
enqueued (hence exactly once, the queue's event identifiers being
pairwise distinct by construction); and in the trace of a release
followed by this peer's next request broadcast, every `FireSignal`
action precedes every `SendRequest` action: the prefix of the combined
trace covering the release contains no `SendRequest`, and the rest
contains no `FireSignal`. -/
theorem release_drains_deferred :
    ∀ c : PrintingClient,
      (release_critical_section c).1.deferred_replies = [] ∧
      (∀ pe : Int × Nat,
        (release_critical_section c).2.count
            (ClientAction.FireSignal pe.1 pe.2) =
          c.deferred_replies.countP (fun x => decide (x = pe))) ∧
      (c.deferred_replies.Nodup → ∀ pe ∈ c.deferred_replies,
        (release_critical_section c).2.count
            (ClientAction.FireSignal pe.1 pe.2) = 1) ∧
      (∀ a ∈ (release_then_acquire c).2.take
          (release_critical_section c).2.length,
        a.isSendReq = false) ∧
      (∀ a ∈ (release_then_acquire c).2.drop
          (release_critical_section c).2.length,
        a.isFire = false) := by
  intro c
  have hinj : Function.Injective
      (fun pe : Int × Nat => ClientAction.FireSignal pe.1 pe.2) := by
    intro a b hab
    simp only [ClientAction.FireSignal.injEq] at hab
    exact Prod.ext hab.1 hab.2
  have hcount : ∀ pe : Int × Nat,
      (release_critical_section c).2.count
          (ClientAction.FireSignal pe.1 pe.2) =
        c.deferred_replies.countP (fun x => decide (x = pe)) := by
    intro pe
    simp only [release_critical_section, List.count_append]
    have h1 := List.count_map_of_injective c.deferred_replies
      (fun pe : Int × Nat => ClientAction.FireSignal pe.1 pe.2) hinj pe
    have h2 : (c.peer_stubs.map (fun p => ClientAction.SendRelease p
        ⟨c.client_id, ((c.clock.tick).1), c.request_number⟩)).count
          (ClientAction.FireSignal pe.1 pe.2) = 0 := by
      rw [List.count_eq_zero]
      intro hmem
      obtain ⟨p, _, hps⟩ := List.mem_map.mp hmem
      exact ClientAction.noConfusion hps
    rw [h2, Nat.add_zero]
    exact h1
  have htrace : (release_then_acquire c).2 =
      (release_critical_section c).2 ++
        (acquire_start (release_critical_section c).1).2 := rfl
  refine ⟨rfl, hcount, ?_, ?_, ?_⟩
  · intro hnd pe hpe
    rw [hcount pe]
    exact List.count_eq_one_of_mem hnd hpe
  · intro a ha
    rw [htrace, List.take_left] at ha
    simp only [release_critical_section, List.mem_append] at ha
    rcases ha with ha | ha
    · obtain ⟨pe, _, hpe⟩ := List.mem_map.mp ha
      rw [← hpe]
      rfl
    · obtain ⟨p, _, hps⟩ := List.mem_map.mp ha
      rw [← hps]
      rfl
  · intro a ha
    rw [htrace, List.drop_left] at ha
    simp only [acquire_start] at ha
    obtain ⟨p, _, hps⟩ := List.mem_map.mp ha
    rw [← hps]
    rfl

/-- Witness for C3 at the concrete client `sampleHolder`, which owes one
deferred reply `(2, 0)`: the release trace fires signal 0 exactly once,
and in the release-then-acquire trace the fire precedes the next
`SendRequest` broadcast. -/
theorem release_drains_deferred_witness :
    (release_critical_section sampleHolder).2.count
        (ClientAction.FireSignal 2 0) = 1 ∧
    ClientAction.isSendReq (ClientAction.FireSignal 2 0) = false ∧
    ClientAction.isFire (ClientAction.SendRequest 2 ⟨1, 9, 3⟩) = false :=
  ⟨(release_drains_deferred sampleHolder).2.2.1 (by decide) (2, 0) (by decide),
   (release_drains_deferred sampleHolder).2.2.2.1 _ (by decide),
   (release_drains_deferred sampleHolder).2.2.2.2 _ (by decide)⟩
